import Mathlib

/-!
Shallow embedding of `select_residue_water_residue_combined.py`, a PyMOL
script that detects water-bridged interactions between two molecular
domains.  The external molecular-modeling toolkit (the PyMOL `cmd` module)
is modeled as an `Env`: a fixed table of query results (selections by
predicate string, pairwise neighbor queries, atom lookups, coordinates).
The script itself is translated function by function:

  * `distance_between_coords`  — the Euclidean distance utility; the
    floating-point `math.sqrt` primitive is abstracted as `Env.sqrt`
    (coordinates and distances are rationals, the square root is an
    opaque-but-fixed numeric oracle, which no verified claim depends on);
  * `find_hydrogen_bonds`      — two directional `cmd.find_pairs` queries;
  * `find_polar_contacts`      — plain distance filter over polar atoms;
  * `resolve_residues`         — the per-side residue-aggregation loops of
    `process_interactions` (Python dict/set keyed by residue tuples);
  * `process_interactions`     — residue cross product, 7.0 total-distance
    gate, record emission, selection/distance-object side effects;
  * `water_loop_step`          — the body of the per-bridging-water loop of
    `select_residue_water_residue_combined`, instrumented with a ghost
    event trace (`Ev`) recording which polar-contact searches ran and
    which contact lists were handed to the aggregator;
  * `select_residue_water_residue_combined` — the top-level entry point.

Mutable toolkit state touched by the script (named selections, distance
objects, printed lines) is threaded explicitly as `PState`.  Fallible
Python operations (`.atom[0]` indexing) are modeled with `Option`.
-/

set_option linter.unusedVariables false

namespace SelectRWR

/-- A 3-D coordinate (`atom.coord` / `cmd.get_atom_coords`); components are
rationals standing for the script's floats. -/
structure Point3 where
  x : ℚ
  y : ℚ
  z : ℚ
deriving DecidableEq, Repr

/-- An atom record as returned by `cmd.get_model(...).atom[i]`: owning
model/object name, chain, residue number (a string in PyMOL), residue name,
atom index, and coordinates. -/
structure Atom where
  model : String
  chain : String
  resi : String
  resn : String
  index : Nat
  coord : Point3
deriving DecidableEq, Repr

/-- An atom-pair contact as produced by `cmd.find_pairs` (fields `a`, `b`,
each a `(model, index)` pair) or by `find_polar_contacts` (which appends a
third tuple component, the distance, modeled as the optional field `d`).
The consumer `process_interactions` only ever reads `contact[0][1]`,
i.e. `c.a.2`. -/
structure Contact where
  a : String × Nat
  b : String × Nat
  d : Option ℚ
deriving DecidableEq, Repr

/-- The residue-identity tuple `(atom.model, atom.chain, atom.resi,
atom.resn)` used as dict/set key in `process_interactions`. -/
structure ResKey where
  model : String
  chain : String
  resi : String
  resn : String
deriving DecidableEq, Repr

/-- One entry of `interaction_list`: the dict literal appended in
`process_interactions`. -/
structure InteractionRec where
  resA : String
  resB : String
  water : Nat
  type : String
  distA : ℚ
  distB : ℚ
  total_distance : ℚ
deriving DecidableEq, Repr

/-- A distance object created by `cmd.distance`; its PyMOL name is
`kind ++ "_" ++ toString id ++ "_" ++ suffix` (e.g. `hbond_3_A`). -/
structure DistObj where
  kind : String
  id : Nat
  suffix : String
  s1 : String
  s2 : String
deriving DecidableEq, Repr

/-- Toolkit-side mutable state touched by the script: the named-selection
registry (name, defining expression), created distance objects, and lines
written to standard output. -/
structure PState where
  selections : List (String × String)
  distObjs : List DistObj
  printed : List String
deriving DecidableEq, Repr

/-- Ghost instrumentation events for control-flow claims: which
polar-contact searches were invoked (with the side tag `"A"`/`"B"`) and
which contact lists were passed to `process_interactions` for a water. -/
inductive Ev where
  | polarSearch (side : String) (domain_sele : String) (water_sele : String)
  | processCall (contacts_A : List Contact) (contacts_B : List Contact)
      (interaction_type : String) (water : String × Nat)
deriving DecidableEq, Repr

/-- The external molecular-modeling toolkit, with its query results held
fixed: every function is a pure table lookup.  `sqrt` abstracts the
floating-point `math.sqrt`. -/
structure Env where
  sqrt : ℚ → ℚ
  find_pairs : String → String → Nat → ℚ → ℚ → List Contact
  get_model_atoms : String → List Atom
  index : String → List (String × Nat)
  count_atoms : String → Nat
  get_atom_coords : String → Point3

/-- Python-dict insertion on an association list: overwrite the value at an
existing key in place, else append the binding at the end (Python dicts
keep the original key position on overwrite). -/
def dictInsert {α β : Type} [DecidableEq α] (k : α) (v : β) :
    List (α × β) → List (α × β)
  | [] => [(k, v)]
  | p :: rest => if p.1 = k then (k, v) :: rest else p :: dictInsert k v rest

/-- Python-dict lookup on an association list. -/
def dictGet {α β : Type} [DecidableEq α] (k : α) : List (α × β) → Option β
  | [] => none
  | p :: rest => if p.1 = k then some p.2 else dictGet k rest

/-- Empty toolkit state at script start. -/
def pstate0 : PState := ⟨[], [], []⟩

/-- Model of `cmd.select(name, expr)`: (re)bind a named selection. -/
def cmd_select (name expr : String) (st : PState) : PState :=
  { st with selections := dictInsert name expr st.selections }

/-- Model of `cmd.delete(name)`: drop a named selection. -/
def cmd_delete (name : String) (st : PState) : PState :=
  { st with selections := st.selections.filter (fun p => !(p.1 == name)) }

/-- Model of `cmd.distance(name, s1, s2)`: create a distance object. -/
def cmd_distance (obj : DistObj) (st : PState) : PState :=
  { st with distObjs := st.distObjs ++ [obj] }

/-- Model of `print(...)`: append one line to standard output. -/
def cmd_print (line : String) (st : PState) : PState :=
  { st with printed := st.printed ++ [line] }

/-! ### Script constants (lines 24-29 of the source) -/

/-- Maximum total distance for interactions (`max_total_distance = 7.0`). -/
def max_total_distance : ℚ := 7

/-- Approximate max distance between residue and water
(`max_total_distance / 2.0`). -/
def max_residue_water_distance : ℚ := max_total_distance / 2

/-- Maximum donor-acceptor distance for hydrogen bonds (`3.5`). -/
def hbond_distance_cutoff : ℚ := 3.5

/-- Minimum angle in degrees for hydrogen bonds (`120`). -/
def hbond_angle_cutoff : ℚ := 120

/-! ### Source functions -/

/-- Translation of `distance_between_coords(coord1, coord2)`:
`math.sqrt` of the squared coordinate difference, with the float square
root abstracted as the environment's `sqrt` oracle. -/
def distance_between_coords (E : Env) (coord1 coord2 : Point3) : ℚ :=
  E.sqrt ((coord1.x - coord2.x) ^ 2 + (coord1.y - coord2.y) ^ 2 +
    (coord1.z - coord2.z) ^ 2)

/-- The N/O non-solvent restriction string used by `find_hydrogen_bonds`:
`'(%s and (name N,O) and not resn HOH)' % domain_sele`. -/
def hbondSel (domain_sele : String) : String :=
  "(" ++ domain_sele ++ " and (name N,O) and not resn HOH)"

/-- Translation of `find_hydrogen_bonds(domain_sele, water_sele,
distance_cutoff, angle_cutoff)`: two directional `cmd.find_pairs` queries
(`mode=1`), concatenated. -/
def find_hydrogen_bonds (E : Env) (domain_sele water_sele : String)
    (distance_cutoff angle_cutoff : ℚ) : List Contact :=
  let hbonds1 := E.find_pairs (hbondSel domain_sele) water_sele 1
    distance_cutoff angle_cutoff
  let hbonds2 := E.find_pairs water_sele (hbondSel domain_sele) 1
    distance_cutoff angle_cutoff
  hbonds1 ++ hbonds2

/-- The polar-atom restriction string used by `find_polar_contacts`:
`'(%s and (name N*,O*) and alt "" and not resn HOH)' % domain_sele`. -/
def polarSel (domain_sele : String) : String :=
  "(" ++ domain_sele ++ " and (name N*,O*) and alt \"\" and not resn HOH)"

/-- Translation of `find_polar_contacts(domain_sele, water_sele,
distance_cutoff)`.  The Python `cmd.get_model(...).atom[0]` on the water
selection raises on an empty list; this is modeled with `Option`. -/
def find_polar_contacts (E : Env) (domain_sele water_sele : String)
    (distance_cutoff : ℚ) : Option (List Contact) :=
  let polar_atoms := E.get_model_atoms (polarSel domain_sele)
  match (E.get_model_atoms (water_sele ++ " and name O and alt \"\"")).head? with
  | none => none
  | some water_atom =>
      some (polar_atoms.filterMap (fun atom =>
        let dist := distance_between_coords E atom.coord water_atom.coord
        if dist ≤ distance_cutoff then
          some ⟨(atom.model, atom.index), (water_atom.model, water_atom.index),
            some dist⟩
        else none))

/-- The atom-lookup selection `'index %d' % atom_idx` used by
`process_interactions`. -/
def idxSel (atom_idx : Nat) : String := "index " ++ toString atom_idx

/-- Translation of the two residue-accumulation loops of
`process_interactions` (lines 192-216): for each contact, look up the atom
of `contact[0][1]`, skip solvent residues, and store
`(atom_idx, distance-to-water)` under the residue key, later contacts for
the same residue overwriting earlier ones (Python dict assignment).
Failure of the `.atom[0]` lookup is `none`. -/
def resolve_residues (E : Env) (water_coords : Point3) :
    List Contact → List (ResKey × Nat × ℚ) → Option (List (ResKey × Nat × ℚ))
  | [], acc => some acc
  | contact :: rest, acc =>
      let atom_idx := contact.a.2
      match (E.get_model_atoms (idxSel atom_idx)).head? with
      | none => none
      | some atom =>
          if atom.resn = "HOH" then
            resolve_residues E water_coords rest acc
          else
            resolve_residues E water_coords rest
              (dictInsert ⟨atom.model, atom.chain, atom.resi, atom.resn⟩
                (atom_idx, distance_between_coords E atom.coord water_coords)
                acc)

/-- The record-field format `'%s/%s`%s/%s' % resA_info`. -/
def fmtResidue (k : ResKey) : String :=
  k.model ++ "/" ++ k.chain ++ "`" ++ k.resi ++ "/" ++ k.resn

/-- The residue selection `'model %s and chain %s and resi %s'`. -/
def residueSele (k : ResKey) : String :=
  "model " ++ k.model ++ " and chain " ++ k.chain ++ " and resi " ++ k.resi

/-- The dict literal appended to `interaction_list` for one
(residueA, residueB) pair. -/
def mkRecord (water_idx : Nat) (interaction_type : String)
    (pA pB : ResKey × Nat × ℚ) : InteractionRec :=
  { resA := fmtResidue pA.1
    resB := fmtResidue pB.1
    water := water_idx
    type := if interaction_type = "hbond" then "Hydrogen Bond" else "Polar Contact"
    distA := pA.2.2
    distB := pB.2.2
    total_distance := pA.2.2 + pB.2.2 }

/-- The body of the inner double loop of `process_interactions`
(lines 223-257) for one (residueA, residueB) pair: apply the 7.0
total-distance gate, append the record, extend the three visualization
selections, and create the two distance objects. -/
def emit_pair (water_idx interaction_id : Nat)
    (interaction_type water_sele : String)
    (acc : List InteractionRec × PState) (pA pB : ResKey × Nat × ℚ) :
    List InteractionRec × PState :=
  let distA := pA.2.2
  let distB := pB.2.2
  let total_distance := distA + distB
  if total_distance ≤ 7 then
    let record := mkRecord water_idx interaction_type pA pB
    let st := cmd_select "interacting_residues_domain1"
      ("interacting_residues_domain1 or (" ++ residueSele pA.1 ++ ")") acc.2
    let st := cmd_select "interacting_residues_domain2"
      ("interacting_residues_domain2 or (" ++ residueSele pB.1 ++ ")") st
    let st := cmd_select "interacting_waters"
      ("interacting_waters or " ++ water_sele) st
    let st := cmd_distance
      ⟨interaction_type, interaction_id, "A", idxSel pA.2.1, water_sele⟩ st
    let st := cmd_distance
      ⟨interaction_type, interaction_id, "B", water_sele, idxSel pB.2.1⟩ st
    (acc.1 ++ [record], st)
  else acc

/-- Translation of `process_interactions` (lines 185-259): aggregate both
contact lists to residues, return the id unchanged when either side is
empty, otherwise increment the id once and emit one record per surviving
(residueA, residueB) pair of the cross product. -/
def process_interactions (E : Env) (contacts_A contacts_B : List Contact)
    (water_obj : String) (water_idx : Nat) (interaction_id : Nat)
    (interaction_type : String) (interaction_list : List InteractionRec)
    (domainA domainB water_sele : String) (water_coords : Point3)
    (st : PState) : Option (Nat × List InteractionRec × PState) :=
  match resolve_residues E water_coords contacts_A [],
        resolve_residues E water_coords contacts_B [] with
  | some resA_distances, some resB_distances =>
      if resA_distances = [] ∨ resB_distances = [] then
        some (interaction_id, interaction_list, st)
      else
        let new_id := interaction_id + 1
        let out := resA_distances.foldl (fun acc pA =>
          resB_distances.foldl (fun acc pB =>
            emit_pair water_idx new_id interaction_type water_sele acc pA pB)
            acc) (interaction_list, st)
        some (new_id, out.1, out.2)
  | _, _ => none

/-- Python's truthiness-based `or` on lists: the first list when non-empty,
else the second (`contacts_A = hbonds_A or polar_contacts_A`). -/
def py_or (l1 l2 : List Contact) : List Contact :=
  if l1.isEmpty then l2 else l1

/-- The water selection string built for one bridging water:
`'(%s and index %d and name O and alt "")' % (water_obj, water_idx)`. -/
def waterSele (w : String × Nat) : String :=
  "(" ++ w.1 ++ " and index " ++ toString w.2 ++ " and name O and alt \"\")"

/-- Loop state of the per-water loop of the entry point: the two
interaction-id counters, the append-only interaction list, the toolkit
state, and the ghost event trace. -/
structure LoopState where
  hbond_id : Nat
  polar_contact_id : Nat
  interaction_list : List InteractionRec
  pstate : PState
  events : List Ev
deriving DecidableEq, Repr

/-- The polar-contact fallback (lines 82-88): invoke
`find_polar_contacts` only when the hydrogen-bond list for that side is
empty, and log the invocation as a ghost `Ev.polarSearch` event. -/
def polar_fallback (E : Env) (hbonds : List Contact)
    (side domain_sele water_sele : String) : Option (List Contact × List Ev) :=
  if hbonds.isEmpty then
    match find_polar_contacts E domain_sele water_sele
        max_residue_water_distance with
    | none => none
    | some polar => some (polar, [Ev.polarSearch side domain_sele water_sele])
  else
    some ([], [])

/-- The body of the `for (water_obj, water_idx) in water_indices` loop
(lines 69-110): hydrogen-bond searches on both sides, polar fallback, and
the four-way classification dispatch to `process_interactions`. -/
def water_loop_step (E : Env) (domainA domainB : String) (s : LoopState)
    (w : String × Nat) : Option LoopState :=
  let water_sele := waterSele w
  let water_coords := E.get_atom_coords water_sele
  let hbonds_A := find_hydrogen_bonds E domainA water_sele
    hbond_distance_cutoff hbond_angle_cutoff
  let hbonds_B := find_hydrogen_bonds E domainB water_sele
    hbond_distance_cutoff hbond_angle_cutoff
  match polar_fallback E hbonds_A "A" domainA water_sele,
        polar_fallback E hbonds_B "B" domainB water_sele with
  | some (polar_contacts_A, evA), some (polar_contacts_B, evB) =>
      let ev0 := s.events ++ evA ++ evB
      if hbonds_A ≠ [] ∧ hbonds_B ≠ [] then
        match process_interactions E hbonds_A hbonds_B w.1 w.2 s.hbond_id
            "hbond" s.interaction_list domainA domainB water_sele
            water_coords s.pstate with
        | none => none
        | some (id', l', st') =>
            some ⟨id', s.polar_contact_id, l', st',
              ev0 ++ [Ev.processCall hbonds_A hbonds_B "hbond" w]⟩
      else if (hbonds_A ≠ [] ∧ polar_contacts_B ≠ []) ∨
          (polar_contacts_A ≠ [] ∧ hbonds_B ≠ []) then
        let contacts_A := py_or hbonds_A polar_contacts_A
        let contacts_B := py_or hbonds_B polar_contacts_B
        match process_interactions E contacts_A contacts_B w.1 w.2
            s.polar_contact_id "polar_contact" s.interaction_list domainA
            domainB water_sele water_coords s.pstate with
        | none => none
        | some (id', l', st') =>
            some ⟨s.hbond_id, id', l', st',
              ev0 ++ [Ev.processCall contacts_A contacts_B "polar_contact" w]⟩
      else if polar_contacts_A ≠ [] ∧ polar_contacts_B ≠ [] then
        match process_interactions E polar_contacts_A polar_contacts_B w.1 w.2
            s.polar_contact_id "polar_contact" s.interaction_list domainA
            domainB water_sele water_coords s.pstate with
        | none => none
        | some (id', l', st') =>
            some ⟨s.hbond_id, id', l', st',
              ev0 ++ [Ev.processCall polar_contacts_A polar_contacts_B
                "polar_contact" w]⟩
      else
        some ⟨s.hbond_id, s.polar_contact_id, s.interaction_list, s.pstate, ev0⟩
  | _, _ => none

/-- Render a rational with one decimal digit, as `'%.1f'` does for the
halves the script formats. -/
def fmt_1f (q : ℚ) : String :=
  let t : ℤ := (q * 10).floor
  toString (t / 10) ++ "." ++ toString (t % 10)

/-- Render a rational with two decimal digits (`'%.2f'`; the C rounding
mode is abstracted by truncation, which no claim depends on). -/
def fmt_2f (q : ℚ) : String :=
  let t : ℤ := (q * 100).floor
  toString (t / 100) ++ "." ++
    (if t % 100 < 10 then "0" ++ toString (t % 100) else toString (t % 100))

/-- The per-interaction report line printed at the end of the run. -/
def interaction_line (i : InteractionRec) : String :=
  "Residue " ++ i.resA ++ " interacts with residue " ++ i.resB ++
    " via water id " ++ toString i.water ++ " (" ++ i.type ++
    "). Distances: " ++ fmt_2f i.distA ++ " Å (resA-water), " ++
    fmt_2f i.distB ++ " Å (water-resB), Total distance: " ++
    fmt_2f i.total_distance ++ " Å"

/-- Result of one invocation of the entry point. -/
structure RunOut where
  interaction_list : List InteractionRec
  pstate : PState
  events : List Ev
  hbond_id : Nat
  polar_contact_id : Nat
deriving DecidableEq, Repr

/-- The query string for the bridging-water enumeration
(`cmd.index('water_bridge and name O and alt ""')`). -/
def bridgeQuery : String := "water_bridge and name O and alt \"\""

/-- Translation of the entry point `select_residue_water_residue_combined`
(lines 4-157): selection setup, debug counts, early return on an empty
bridging-water set, the per-water loop, final reporting, and cleanup of
the temporary selections.  The write-only annotation primitives
(`show`/`color`/`set`/`hide`/`label`) affect no state this model tracks
and are omitted. -/
def select_residue_water_residue_combined (E : Env) (domainA domainB : String) :
    Option RunOut :=
  let st := cmd_select "all_waters" "resn HOH" pstate0
  let st := cmd_select "water_near_A"
    ("all_waters within " ++ fmt_1f max_residue_water_distance ++ " of (" ++
      domainA ++ ")") st
  let st := cmd_select "water_near_B"
    ("all_waters within " ++ fmt_1f max_residue_water_distance ++ " of (" ++
      domainB ++ ")") st
  let st := cmd_select "water_bridge" "water_near_A and water_near_B" st
  let num_waters_A := E.count_atoms "water_near_A and name O"
  let num_waters_B := E.count_atoms "water_near_B and name O"
  let num_bridging_waters := E.count_atoms "water_bridge and name O"
  let st := cmd_print
    ("Number of water molecules near domainA: " ++ toString num_waters_A) st
  let st := cmd_print
    ("Number of water molecules near domainB: " ++ toString num_waters_B) st
  let st := cmd_print
    ("Number of bridging water molecules: " ++ toString num_bridging_waters) st
  let water_indices := E.index bridgeQuery
  if water_indices = [] then
    let st := cmd_print
      "No bridging water molecules found between the specified domains within the specified distance."
      st
    let st := cmd_delete "all_waters" st
    let st := cmd_delete "water_near_A" st
    let st := cmd_delete "water_near_B" st
    let st := cmd_delete "water_bridge" st
    some ⟨[], st, [], 0, 0⟩
  else
    let st := cmd_select "interacting_residues_domain1" "none" st
    let st := cmd_select "interacting_residues_domain2" "none" st
    let st := cmd_select "interacting_waters" "none" st
    match List.foldlM (water_loop_step E domainA domainB)
        (⟨0, 0, [], st, []⟩ : LoopState) water_indices with
    | none => none
    | some s =>
        let st := s.pstate
        let st := if s.interaction_list ≠ [] then st
          else cmd_print
            "No residue interactions found via bridging water molecules within the specified criteria."
            st
        let st := cmd_print
          ("Total interactions: " ++ toString s.interaction_list.length) st
        let st := s.interaction_list.foldl
          (fun st i => cmd_print (interaction_line i) st) st
        let st := cmd_delete "all_waters" st
        let st := cmd_delete "water_near_A" st
        let st := cmd_delete "water_near_B" st
        let st := cmd_delete "water_bridge" st
        some ⟨s.interaction_list, st, s.events, s.hbond_id, s.polar_contact_id⟩

/-! ### Specification-side helper functions -/

/-- The residue entry one contact contributes in the aggregation loops:
`none` when the atom lookup fails or the atom is solvent, otherwise the
residue key together with the atom index and recomputed water distance. -/
def contactEntry (E : Env) (water_coords : Point3) (c : Contact) :
    Option (ResKey × Nat × ℚ) :=
  match (E.get_model_atoms (idxSel c.a.2)).head? with
  | none => none
  | some atom =>
      if atom.resn = "HOH" then none
      else some (⟨atom.model, atom.chain, atom.resi, atom.resn⟩, c.a.2,
        distance_between_coords E atom.coord water_coords)

/-- The value of the last entry of the list carrying key `k` (Python dict
overwrite semantics). -/
def last_written (k : ResKey) : List (ResKey × Nat × ℚ) → Option (Nat × ℚ)
  | [] => none
  | e :: rest =>
      match last_written k rest with
      | some v => some v
      | none => if e.1 = k then some e.2 else none

/-- The cross product of two lists in nested-loop order. -/
def crossPairs {α β : Type} : List α → List β → List (α × β)
  | [], _ => []
  | a :: as, l2 => l2.map (fun b => (a, b)) ++ crossPairs as l2

/-- The records the inner double loop of `process_interactions` emits for
a list of residue pairs: one record per pair passing the 7.0 gate. -/
def pairRecords (water_idx : Nat) (interaction_type : String)
    (pairs : List ((ResKey × Nat × ℚ) × (ResKey × Nat × ℚ))) :
    List InteractionRec :=
  pairs.filterMap (fun pq =>
    if pq.1.2.2 + pq.2.2.2 ≤ 7 then
      some (mkRecord water_idx interaction_type pq.1 pq.2)
    else none)

/-! ### Association-list (Python dict) lemmas -/

theorem dictGet_dictInsert {α β : Type} [DecidableEq α] (k k' : α) (v : β)
    (l : List (α × β)) :
    dictGet k (dictInsert k' v l) =
      if k' = k then some v else dictGet k l := by
  induction l with
  | nil => by_cases hk : k' = k <;> simp [dictInsert, dictGet, hk]
  | cons p rest ih =>
      by_cases hp : p.1 = k'
      · subst hp
        by_cases hk : p.1 = k <;> simp [dictInsert, dictGet, hk]
      · have h1 : dictInsert k' v (p :: rest) = p :: dictInsert k' v rest := by
          simp [dictInsert, hp]
        by_cases hk : p.1 = k
        · have hkk : ¬ k' = k := fun h => hp (hk.trans h.symm)
          rw [h1]
          simp [dictGet, hk, hkk]
        · rw [h1]
          simp [dictGet, hk, ih]

theorem mem_keys_dictInsert {α β : Type} [DecidableEq α] (k k' : α) (v : β)
    (l : List (α × β)) :
    k' ∈ (dictInsert k v l).map Prod.fst ↔ k' = k ∨ k' ∈ l.map Prod.fst := by
  induction l with
  | nil => simp [dictInsert]
  | cons p rest ih =>
      by_cases hp : p.1 = k
      · subst hp
        have h1 : dictInsert p.1 v (p :: rest) = (p.1, v) :: rest := by
          simp [dictInsert]
        rw [h1]
        simp only [List.map_cons, List.mem_cons]
        tauto
      · have h1 : dictInsert k v (p :: rest) = p :: dictInsert k v rest := by
          simp [dictInsert, hp]
        rw [h1]
        simp only [List.map_cons, List.mem_cons, ih]
        tauto

theorem keys_nodup_dictInsert {α β : Type} [DecidableEq α] (k : α) (v : β)
    (l : List (α × β)) (h : (l.map Prod.fst).Nodup) :
    ((dictInsert k v l).map Prod.fst).Nodup := by
  induction l with
  | nil => simp [dictInsert]
  | cons p rest ih =>
      simp only [List.map_cons, List.nodup_cons] at h
      by_cases hp : p.1 = k
      · subst hp
        simpa [dictInsert, List.nodup_cons] using h
      · simp only [dictInsert, hp, if_false, List.map_cons, List.nodup_cons]
        refine ⟨fun hc => ?_, ih h.2⟩
        rcases (mem_keys_dictInsert k p.1 v rest).1 hc with h1 | h1
        · exact hp h1
        · exact h.1 h1

theorem dictGet_foldl_dictInsert (entries : List (ResKey × Nat × ℚ))
    (acc : List (ResKey × Nat × ℚ)) (k : ResKey) :
    dictGet k (entries.foldl (fun d e => dictInsert e.1 e.2 d) acc) =
      match last_written k entries with
      | some v => some v
      | none => dictGet k acc := by
  induction entries generalizing acc with
  | nil => simp [last_written]
  | cons e rest ih =>
      simp only [List.foldl_cons, ih, last_written]
      cases last_written k rest with
      | some v => rfl
      | none =>
          rw [dictGet_dictInsert]
          by_cases he : e.1 = k <;> simp [he]

theorem keys_nodup_foldl_dictInsert (entries : List (ResKey × Nat × ℚ))
    (acc : List (ResKey × Nat × ℚ)) (h : (acc.map Prod.fst).Nodup) :
    (((entries.foldl (fun d e => dictInsert e.1 e.2 d) acc)).map Prod.fst).Nodup := by
  induction entries generalizing acc with
  | nil => simpa
  | cons e rest ih => exact ih _ (keys_nodup_dictInsert _ _ _ h)

/-! ### Lemmas about `resolve_residues` -/

theorem resolve_residues_eq_foldl (E : Env) (wc : Point3)
    (contacts : List Contact) (acc l : List (ResKey × Nat × ℚ))
    (h : resolve_residues E wc contacts acc = some l) :
    l = (contacts.filterMap (contactEntry E wc)).foldl
      (fun d e => dictInsert e.1 e.2 d) acc := by
  induction contacts generalizing acc with
  | nil =>
      simp only [resolve_residues] at h
      cases h
      simp
  | cons c rest ih =>
      cases hc : (E.get_model_atoms (idxSel c.a.2)).head? with
      | none => simp [resolve_residues, hc] at h
      | some atom =>
          simp only [resolve_residues, hc] at h
          by_cases hr : atom.resn = "HOH"
          · rw [if_pos hr] at h
            simpa [List.filterMap_cons, contactEntry, hc, hr] using ih _ h
          · rw [if_neg hr] at h
            simpa [List.filterMap_cons, contactEntry, hc, hr] using ih _ h

theorem resolve_residues_isSome (E : Env) (wc : Point3)
    (contacts : List Contact)
    (h : ∀ c ∈ contacts, ((E.get_model_atoms (idxSel c.a.2)).head?).isSome = true) :
    ∀ acc, ∃ l, resolve_residues E wc contacts acc = some l := by
  induction contacts with
  | nil => intro acc; exact ⟨acc, rfl⟩
  | cons c rest ih =>
      intro acc
      have hc := h c (by simp)
      cases hcc : (E.get_model_atoms (idxSel c.a.2)).head? with
      | none => rw [hcc] at hc; cases hc
      | some atom =>
          have hrest : ∀ c' ∈ rest,
              ((E.get_model_atoms (idxSel c'.a.2)).head?).isSome = true :=
            fun c' hc' => h c' (by simp [hc'])
          by_cases hr : atom.resn = "HOH"
          · obtain ⟨l, hl⟩ := ih hrest acc
            exact ⟨l, by simp [resolve_residues, hcc, hr, hl]⟩
          · obtain ⟨l, hl⟩ := ih hrest
              (dictInsert ⟨atom.model, atom.chain, atom.resi, atom.resn⟩
                (c.a.2, distance_between_coords E atom.coord wc) acc)
            exact ⟨l, by simp [resolve_residues, hcc, hr, hl]⟩

theorem resolve_residues_all_solvent (E : Env) (wc : Point3)
    (contacts : List Contact)
    (h : ∀ c ∈ contacts,
      ((E.get_model_atoms (idxSel c.a.2)).head?.map Atom.resn) = some "HOH") :
    ∀ acc, resolve_residues E wc contacts acc = some acc := by
  induction contacts with
  | nil => intro acc; rfl
  | cons c rest ih =>
      intro acc
      have hc := h c (by simp)
      cases hcc : (E.get_model_atoms (idxSel c.a.2)).head? with
      | none => rw [hcc] at hc; cases hc
      | some atom =>
          rw [hcc] at hc
          have hr : atom.resn = "HOH" := by simpa using hc
          have hrest : ∀ c' ∈ rest,
              ((E.get_model_atoms (idxSel c'.a.2)).head?.map Atom.resn) = some "HOH" :=
            fun c' hc' => h c' (by simp [hc'])
          simp [resolve_residues, hcc, hr, ih hrest acc]

/-! ### Lemmas about `crossPairs` and `pairRecords` -/

theorem mem_crossPairs {α β : Type} (l1 : List α) (l2 : List β) (p : α × β) :
    p ∈ crossPairs l1 l2 ↔ p.1 ∈ l1 ∧ p.2 ∈ l2 := by
  induction l1 with
  | nil => simp [crossPairs]
  | cons a as ih =>
      cases p with
      | mk p1 p2 =>
          simp only [crossPairs, List.mem_append, List.mem_map, ih,
            List.mem_cons, Prod.mk.injEq]
          constructor
          · rintro (⟨b, hb, h1, h2⟩ | ⟨h1, h2⟩)
            · exact ⟨Or.inl h1.symm, h2 ▸ hb⟩
            · exact ⟨Or.inr h1, h2⟩
          · rintro ⟨h1 | h1, h2⟩
            · exact Or.inl ⟨p2, h2, h1.symm, rfl⟩
            · exact Or.inr ⟨h1, h2⟩

theorem crossPairs_map {α β γ δ : Type} (f : α → γ) (g : β → δ)
    (l1 : List α) (l2 : List β) :
    (crossPairs l1 l2).map (Prod.map f g) = crossPairs (l1.map f) (l2.map g) := by
  induction l1 with
  | nil => simp [crossPairs]
  | cons a as ih =>
      simp only [crossPairs, List.map_append, List.map_map, List.map_cons, ih]
      congr 1

theorem crossPairs_nodup {α β : Type} (l1 : List α) (l2 : List β)
    (h1 : l1.Nodup) (h2 : l2.Nodup) : (crossPairs l1 l2).Nodup := by
  induction l1 with
  | nil => simp [crossPairs]
  | cons a as ih =>
      simp only [List.nodup_cons] at h1
      refine List.Nodup.append ?_ (ih h1.2) ?_
      · exact h2.map (fun b b' hb => by simpa using congrArg Prod.snd hb)
      · intro p hp hp'
        rcases List.mem_map.1 hp with ⟨b, _, rfl⟩
        exact h1.1 ((mem_crossPairs as l2 (a, b)).1 hp').1

theorem pairRecords_append (wi : Nat) (ty : String)
    (xs ys : List ((ResKey × Nat × ℚ) × (ResKey × Nat × ℚ))) :
    pairRecords wi ty (xs ++ ys) = pairRecords wi ty xs ++ pairRecords wi ty ys := by
  simp [pairRecords]

theorem mem_pairRecords (wi : Nat) (ty : String)
    (pairs : List ((ResKey × Nat × ℚ) × (ResKey × Nat × ℚ)))
    (r : InteractionRec) :
    r ∈ pairRecords wi ty pairs ↔
      ∃ pq ∈ pairs, pq.1.2.2 + pq.2.2.2 ≤ 7 ∧ r = mkRecord wi ty pq.1 pq.2 := by
  simp only [pairRecords, List.mem_filterMap]
  constructor
  · rintro ⟨pq, hpq, hr⟩
    by_cases h7 : pq.1.2.2 + pq.2.2.2 ≤ 7
    · rw [if_pos h7] at hr
      exact ⟨pq, hpq, h7, (Option.some.inj hr).symm⟩
    · rw [if_neg h7] at hr
      cases hr
  · rintro ⟨pq, hpq, h7, rfl⟩
    exact ⟨pq, hpq, by rw [if_pos h7]⟩

theorem pairRecords_fields (wi : Nat) (ty : String)
    (pairs : List ((ResKey × Nat × ℚ) × (ResKey × Nat × ℚ)))
    (r : InteractionRec) (h : r ∈ pairRecords wi ty pairs) :
    r.total_distance = r.distA + r.distB ∧ r.total_distance ≤ 7 ∧
      r.type = (if ty = "hbond" then "Hydrogen Bond" else "Polar Contact") ∧
      r.water = wi := by
  rcases (mem_pairRecords wi ty pairs r).1 h with ⟨pq, _, h7, rfl⟩
  exact ⟨rfl, h7, rfl, rfl⟩

/-! ### Lemmas about the emission double loop -/

theorem emit_pair_fst (wi id : Nat) (ty ws : String)
    (acc : List InteractionRec × PState) (pA pB : ResKey × Nat × ℚ) :
    (emit_pair wi id ty ws acc pA pB).1 =
      acc.1 ++ (if pA.2.2 + pB.2.2 ≤ 7 then [mkRecord wi ty pA pB] else []) := by
  by_cases h : pA.2.2 + pB.2.2 ≤ 7 <;> simp [emit_pair, h]

theorem emit_pair_distObjs (wi id : Nat) (ty ws : String)
    (acc : List InteractionRec × PState) (pA pB : ResKey × Nat × ℚ)
    (d : DistObj) (h : d ∈ (emit_pair wi id ty ws acc pA pB).2.distObjs) :
    d ∈ acc.2.distObjs ∨ d.id = id := by
  by_cases h7 : pA.2.2 + pB.2.2 ≤ 7
  · simp only [emit_pair, if_pos h7, cmd_distance, cmd_select,
      List.append_assoc, List.mem_append, List.mem_cons,
      List.not_mem_nil, or_false, List.mem_singleton] at h
    rcases h with h | h | h
    · exact Or.inl h
    · exact Or.inr (by rw [h])
    · exact Or.inr (by rw [h])
  · simp only [emit_pair, if_neg h7] at h
    exact Or.inl h

theorem inner_foldl_fst (wi id : Nat) (ty ws : String)
    (resB : List (ResKey × Nat × ℚ)) (pA : ResKey × Nat × ℚ)
    (acc : List InteractionRec × PState) :
    (resB.foldl (fun acc pB => emit_pair wi id ty ws acc pA pB) acc).1 =
      acc.1 ++ pairRecords wi ty (resB.map (fun pB => (pA, pB))) := by
  induction resB generalizing acc with
  | nil => simp [pairRecords]
  | cons pB rest ih =>
      simp only [List.foldl_cons, ih, emit_pair_fst, List.map_cons]
      by_cases h7 : pA.2.2 + pB.2.2 ≤ 7 <;>
        simp [pairRecords, h7, List.append_assoc]

theorem outer_foldl_fst (wi id : Nat) (ty ws : String)
    (resA resB : List (ResKey × Nat × ℚ))
    (acc : List InteractionRec × PState) :
    (resA.foldl (fun acc pA =>
        resB.foldl (fun acc pB => emit_pair wi id ty ws acc pA pB) acc) acc).1 =
      acc.1 ++ pairRecords wi ty (crossPairs resA resB) := by
  induction resA generalizing acc with
  | nil => simp [crossPairs, pairRecords]
  | cons pA rest ih =>
      simp only [List.foldl_cons, ih, inner_foldl_fst, crossPairs,
        pairRecords_append, List.append_assoc]

theorem foldl_distObjs_inv {α : Type}
    (f : List InteractionRec × PState → α → List InteractionRec × PState)
    (P : DistObj → Prop)
    (hf : ∀ acc x d, d ∈ (f acc x).2.distObjs → d ∈ acc.2.distObjs ∨ P d)
    (xs : List α) :
    ∀ acc d, d ∈ (xs.foldl f acc).2.distObjs → d ∈ acc.2.distObjs ∨ P d := by
  induction xs with
  | nil => intro acc d h; exact Or.inl h
  | cons x rest ih =>
      intro acc d h
      rcases ih (f acc x) d h with h1 | h1
      · exact hf acc x d h1
      · exact Or.inr h1

theorem outer_foldl_distObjs (wi id : Nat) (ty ws : String)
    (resA resB : List (ResKey × Nat × ℚ))
    (acc : List InteractionRec × PState) (d : DistObj)
    (h : d ∈ (resA.foldl (fun acc pA =>
        resB.foldl (fun acc pB => emit_pair wi id ty ws acc pA pB) acc)
        acc).2.distObjs) :
    d ∈ acc.2.distObjs ∨ d.id = id := by
  refine foldl_distObjs_inv _ (fun d => d.id = id) ?_ resA acc d h
  intro acc' pA d' hd'
  exact foldl_distObjs_inv _ (fun d => d.id = id)
    (fun acc'' pB d'' hd'' => emit_pair_distObjs wi id ty ws acc'' pA pB d'' hd'')
    resB acc' d' hd'

/-! ### Characterization of `process_interactions` -/

theorem process_interactions_spec (E : Env) (cA cB : List Contact)
    (wo : String) (wi id : Nat) (ty : String) (l : List InteractionRec)
    (dA dB ws : String) (wc : Point3) (st : PState)
    (id' : Nat) (l' : List InteractionRec) (st' : PState)
    (h : process_interactions E cA cB wo wi id ty l dA dB ws wc st =
      some (id', l', st')) :
    ∃ resA resB, resolve_residues E wc cA [] = some resA ∧
      resolve_residues E wc cB [] = some resB ∧
      (((resA = [] ∨ resB = []) ∧ id' = id ∧ l' = l ∧ st' = st) ∨
       (¬(resA = [] ∨ resB = []) ∧ id' = id + 1 ∧
         l' = l ++ pairRecords wi ty (crossPairs resA resB) ∧
         (∀ d ∈ st'.distObjs, d ∈ st.distObjs ∨ d.id = id + 1))) := by
  cases hA : resolve_residues E wc cA [] with
  | none => simp [process_interactions, hA] at h
  | some resA =>
      cases hB : resolve_residues E wc cB [] with
      | none => simp [process_interactions, hA, hB] at h
      | some resB =>
          refine ⟨resA, resB, rfl, rfl, ?_⟩
          simp only [process_interactions, hA, hB] at h
          by_cases he : resA = [] ∨ resB = []
          · rw [if_pos he] at h
            have h' := Option.some.inj h
            refine Or.inl ⟨he, (congrArg Prod.fst h').symm, ?_, ?_⟩
            · have := congrArg (fun p => p.2.1) h'
              simp only at this
              exact this.symm
            · have := congrArg (fun p => p.2.2) h'
              simp only at this
              exact this.symm
          · rw [if_neg he] at h
            obtain h' := Option.some.inj h
            refine Or.inr ⟨he, ?_, ?_, ?_⟩
            · exact (congrArg Prod.fst h').symm
            · have := congrArg (fun p => p.2.1) h'
              simp only at this
              rw [← this, outer_foldl_fst]
            · intro d hd
              have := congrArg (fun p => p.2.2) h'
              simp only at this
              rw [← this] at hd
              exact outer_foldl_distObjs wi (id + 1) ty ws resA resB (l, st) d hd

/-! ### Characterization of `water_loop_step` -/

/-- The hydrogen-bond list computed for one side of one bridging water. -/
def hbondsOf (E : Env) (domain : String) (w : String × Nat) : List Contact :=
  find_hydrogen_bonds E domain (waterSele w) hbond_distance_cutoff
    hbond_angle_cutoff

/-- The water-oxygen coordinates fetched for one bridging water. -/
def waterCoords (E : Env) (w : String × Nat) : Point3 :=
  E.get_atom_coords (waterSele w)

theorem water_loop_step_cases (E : Env) (dA dB : String) (s : LoopState)
    (w : String × Nat) (s' : LoopState)
    (h : water_loop_step E dA dB s w = some s') :
    ∃ pA evA pB evB,
      polar_fallback E (hbondsOf E dA w) "A" dA (waterSele w) = some (pA, evA) ∧
      polar_fallback E (hbondsOf E dB w) "B" dB (waterSele w) = some (pB, evB) ∧
      (((hbondsOf E dA w ≠ [] ∧ hbondsOf E dB w ≠ []) ∧ ∃ id' l' st',
          process_interactions E (hbondsOf E dA w) (hbondsOf E dB w) w.1 w.2
            s.hbond_id "hbond" s.interaction_list dA dB (waterSele w)
            (waterCoords E w) s.pstate = some (id', l', st') ∧
          s' = ⟨id', s.polar_contact_id, l', st', s.events ++ evA ++ evB ++
            [Ev.processCall (hbondsOf E dA w) (hbondsOf E dB w) "hbond" w]⟩)
       ∨ (¬(hbondsOf E dA w ≠ [] ∧ hbondsOf E dB w ≠ []) ∧
          ((hbondsOf E dA w ≠ [] ∧ pB ≠ []) ∨ (pA ≠ [] ∧ hbondsOf E dB w ≠ [])) ∧
          ∃ id' l' st',
          process_interactions E (py_or (hbondsOf E dA w) pA)
            (py_or (hbondsOf E dB w) pB) w.1 w.2 s.polar_contact_id
            "polar_contact" s.interaction_list dA dB (waterSele w)
            (waterCoords E w) s.pstate = some (id', l', st') ∧
          s' = ⟨s.hbond_id, id', l', st', s.events ++ evA ++ evB ++
            [Ev.processCall (py_or (hbondsOf E dA w) pA)
              (py_or (hbondsOf E dB w) pB) "polar_contact" w]⟩)
       ∨ (¬(hbondsOf E dA w ≠ [] ∧ hbondsOf E dB w ≠ []) ∧
          ¬((hbondsOf E dA w ≠ [] ∧ pB ≠ []) ∨ (pA ≠ [] ∧ hbondsOf E dB w ≠ [])) ∧
          (pA ≠ [] ∧ pB ≠ []) ∧ ∃ id' l' st',
          process_interactions E pA pB w.1 w.2 s.polar_contact_id
            "polar_contact" s.interaction_list dA dB (waterSele w)
            (waterCoords E w) s.pstate = some (id', l', st') ∧
          s' = ⟨s.hbond_id, id', l', st', s.events ++ evA ++ evB ++
            [Ev.processCall pA pB "polar_contact" w]⟩)
       ∨ (¬(hbondsOf E dA w ≠ [] ∧ hbondsOf E dB w ≠ []) ∧
          ¬((hbondsOf E dA w ≠ [] ∧ pB ≠ []) ∨ (pA ≠ [] ∧ hbondsOf E dB w ≠ [])) ∧
          ¬(pA ≠ [] ∧ pB ≠ []) ∧
          s' = ⟨s.hbond_id, s.polar_contact_id, s.interaction_list, s.pstate,
            s.events ++ evA ++ evB⟩)) := by
  simp only [water_loop_step] at h
  split at h
  next polar_contacts_A evA polar_contacts_B evB hfa hfb =>
    refine ⟨polar_contacts_A, evA, polar_contacts_B, evB, hfa, hfb, ?_⟩
    split at h
    next hc1 =>
      split at h
      next hp => exact absurd h (by simp)
      next id' l' st' hp =>
        exact Or.inl ⟨hc1, id', l', st', hp, (Option.some.inj h).symm⟩
    next hc1 =>
      split at h
      next hc2 =>
        split at h
        next hp => exact absurd h (by simp)
        next id' l' st' hp =>
          exact Or.inr (Or.inl ⟨hc1, hc2, id', l', st', hp,
            (Option.some.inj h).symm⟩)
      next hc2 =>
        split at h
        next hc3 =>
          split at h
          next hp => exact absurd h (by simp)
          next id' l' st' hp =>
            exact Or.inr (Or.inr (Or.inl ⟨hc1, hc2, hc3, id', l', st', hp,
              (Option.some.inj h).symm⟩))
        next hc3 =>
          exact Or.inr (Or.inr (Or.inr ⟨hc1, hc2, hc3,
            (Option.some.inj h).symm⟩))
  next hne => exact absurd h (by simp)

theorem polar_fallback_spec (E : Env) (hbonds : List Contact)
    (side d ws : String) (p : List Contact) (ev : List Ev)
    (h : polar_fallback E hbonds side d ws = some (p, ev)) :
    (hbonds = [] →
      find_polar_contacts E d ws max_residue_water_distance = some p ∧
        ev = [Ev.polarSearch side d ws]) ∧
    (hbonds ≠ [] → p = [] ∧ ev = []) := by
  by_cases he : hbonds = []
  · subst he
    simp only [polar_fallback, List.isEmpty_nil, if_pos] at h
    cases hf : find_polar_contacts E d ws max_residue_water_distance with
    | none => simp [hf] at h
    | some polar =>
        simp only [hf] at h
        have h' := Option.some.inj h
        injection h' with h1 h2
        refine ⟨fun _ => ⟨?_, ?_⟩, fun hne => absurd rfl hne⟩
        · rw [h1]
        · exact h2.symm
  · have hne : hbonds.isEmpty = false := by
      cases hbonds with
      | nil => exact absurd rfl he
      | cons a as => rfl
    simp only [polar_fallback, hne, Bool.false_eq_true, if_false] at h
    have h' := Option.some.inj h
    exact ⟨fun hh => absurd hh he,
      fun _ => ⟨(congrArg Prod.fst h').symm, (congrArg Prod.snd h').symm⟩⟩

/-! ### Concrete toolkit environments for witnesses and counterexamples -/

/-- A toolkit oracle with no query results at all: no waters, no atoms. -/
def envEmpty : Env :=
  { sqrt := fun q => q
    find_pairs := fun _ _ _ _ _ => []
    get_model_atoms := fun _ => []
    index := fun _ => []
    count_atoms := fun _ => 0
    get_atom_coords := fun _ => ⟨0, 0, 0⟩ }

/-- The single bridging water `(object "m", index 100)` used by the
concrete scenarios. -/
def wX : String × Nat := ("m", 100)

/-- Domain-A atom of the hydrogen-bond scenario. -/
def atomX1 : Atom := ⟨"m", "A", "10", "GLY", 1, ⟨1, 0, 0⟩⟩

/-- Domain-B atom of the hydrogen-bond scenario. -/
def atomX2 : Atom := ⟨"m", "B", "20", "ALA", 2, ⟨0, 2, 0⟩⟩

/-- Domain-A → water contact returned by `find_pairs` in the
hydrogen-bond scenario. -/
def cX1 : Contact := ⟨("m", 1), ("m", 100), none⟩

/-- Domain-B → water contact returned by `find_pairs` in the
hydrogen-bond scenario. -/
def cX2 : Contact := ⟨("m", 2), ("m", 100), none⟩

/-- Scenario: one bridging water with a hydrogen bond to one residue on
each side (the `sqrt` oracle is the identity, so "distances" are the
squared Euclidean distances 1 and 4). -/
def envHB : Env :=
  { sqrt := fun q => q
    find_pairs := fun s1 s2 _ _ _ =>
      if s1 = hbondSel "dA" ∧ s2 = waterSele wX then [cX1]
      else if s1 = hbondSel "dB" ∧ s2 = waterSele wX then [cX2]
      else []
    get_model_atoms := fun s =>
      if s = idxSel 1 then [atomX1]
      else if s = idxSel 2 then [atomX2]
      else []
    index := fun s => if s = bridgeQuery then [wX] else []
    count_atoms := fun _ => 1
    get_atom_coords := fun _ => ⟨0, 0, 0⟩ }

/-- Domain-A polar atom of the polar-contact scenario. -/
def atomY3 : Atom := ⟨"m", "A", "10", "SER", 3, ⟨1, 0, 0⟩⟩

/-- Domain-B polar atom of the polar-contact scenario. -/
def atomY4 : Atom := ⟨"m", "B", "20", "THR", 4, ⟨0, 1, 0⟩⟩

/-- The water atom record of the concrete scenarios. -/
def atomYW : Atom := ⟨"m", "W", "301", "HOH", 100, ⟨0, 0, 0⟩⟩

/-- Scenario: one bridging water with no hydrogen bonds at all but one
polar contact on each side. -/
def envPC : Env :=
  { sqrt := fun q => q
    find_pairs := fun _ _ _ _ _ => []
    get_model_atoms := fun s =>
      if s = polarSel "dA" then [atomY3]
      else if s = polarSel "dB" then [atomY4]
      else if s = waterSele wX ++ " and name O and alt \"\"" then [atomYW]
      else if s = idxSel 3 then [atomY3]
      else if s = idxSel 4 then [atomY4]
      else []
    index := fun s => if s = bridgeQuery then [wX] else []
    count_atoms := fun _ => 1
    get_atom_coords := fun _ => ⟨0, 0, 0⟩ }

/-- The water-first contact produced by the second (water → domain)
directional `find_pairs` query: its `contact[0]` is the water atom
itself. -/
def cW : Contact := ⟨("m", 100), ("m", 5), none⟩

/-- Domain-B atom of the solvent-side scenario. -/
def atomZ6 : Atom := ⟨"m", "B", "20", "ALA", 6, ⟨0, 2, 0⟩⟩

/-- Domain-B → water contact of the solvent-side scenario. -/
def cZ6 : Contact := ⟨("m", 6), ("m", 100), none⟩

/-- Scenario: the water is classified as hydrogen-bonded on both sides,
but every side-A contact is a water-first pair (from the second
directional query), so side A resolves only to the solvent residue and
aggregation retains nothing for it. -/
def envHOH : Env :=
  { sqrt := fun q => q
    find_pairs := fun s1 s2 _ _ _ =>
      if s1 = waterSele wX ∧ s2 = hbondSel "dA" then [cW]
      else if s1 = hbondSel "dB" ∧ s2 = waterSele wX then [cZ6]
      else []
    get_model_atoms := fun s =>
      if s = idxSel 100 then [atomYW]
      else if s = idxSel 6 then [atomZ6]
      else []
    index := fun s => if s = bridgeQuery then [wX] else []
    count_atoms := fun _ => 1
    get_atom_coords := fun _ => ⟨0, 0, 0⟩ }

/-- Near atom (distance 1) of residue GLY`10, hit by the first contact of
the overwrite scenario. -/
def atomW11 : Atom := ⟨"m", "A", "10", "GLY", 11, ⟨1, 0, 0⟩⟩

/-- Far atom (distance 4) of the same residue GLY`10, hit by the second
contact of the overwrite scenario. -/
def atomW12 : Atom := ⟨"m", "A", "10", "GLY", 12, ⟨2, 0, 0⟩⟩

/-- First (nearer) contact of the overwrite scenario. -/
def cN : Contact := ⟨("m", 11), ("m", 100), none⟩

/-- Second (farther) contact of the overwrite scenario, same residue. -/
def cF : Contact := ⟨("m", 12), ("m", 100), none⟩

/-- Scenario: two contacts of one water resolving to two atoms of the same
residue, the nearer atom first. -/
def envLast : Env :=
  { sqrt := fun q => q
    find_pairs := fun _ _ _ _ _ => []
    get_model_atoms := fun s =>
      if s = idxSel 11 then [atomW11]
      else if s = idxSel 12 then [atomW12]
      else []
    index := fun _ => []
    count_atoms := fun _ => 0
    get_atom_coords := fun _ => ⟨0, 0, 0⟩ }

/-- Initial loop state used by the concrete scenarios. -/
def loopInit : LoopState := ⟨0, 0, [], pstate0, []⟩

/-- The interaction record emitted in the hydrogen-bond scenario. -/
def recHB : InteractionRec :=
  ⟨"m/A`10/GLY", "m/B`20/ALA", 100, "Hydrogen Bond", 1, 4, 5⟩

/-- Toolkit state after processing the hydrogen-bond scenario. -/
def stHB : PState :=
  ⟨[("interacting_residues_domain1",
      "interacting_residues_domain1 or (model m and chain A and resi 10)"),
    ("interacting_residues_domain2",
      "interacting_residues_domain2 or (model m and chain B and resi 20)"),
    ("interacting_waters",
      "interacting_waters or (m and index 100 and name O and alt \"\")")],
   [⟨"hbond", 1, "A", "index 1", "(m and index 100 and name O and alt \"\")"⟩,
    ⟨"hbond", 1, "B", "(m and index 100 and name O and alt \"\")", "index 2"⟩],
   []⟩

/-- Loop state after the hydrogen-bond scenario's water. -/
def sHB : LoopState :=
  ⟨1, 0, [recHB], stHB, [Ev.processCall [cX1] [cX2] "hbond" wX]⟩

/-- Polar contact (side A) produced in the polar-contact scenario. -/
def cY3 : Contact := ⟨("m", 3), ("m", 100), some 1⟩

/-- Polar contact (side B) produced in the polar-contact scenario. -/
def cY4 : Contact := ⟨("m", 4), ("m", 100), some 1⟩

/-- The interaction record emitted in the polar-contact scenario. -/
def recPC : InteractionRec :=
  ⟨"m/A`10/SER", "m/B`20/THR", 100, "Polar Contact", 1, 1, 2⟩

/-- Toolkit state after processing the polar-contact scenario. -/
def stPC : PState :=
  ⟨[("interacting_residues_domain1",
      "interacting_residues_domain1 or (model m and chain A and resi 10)"),
    ("interacting_residues_domain2",
      "interacting_residues_domain2 or (model m and chain B and resi 20)"),
    ("interacting_waters",
      "interacting_waters or (m and index 100 and name O and alt \"\")")],
   [⟨"polar_contact", 1, "A", "index 3",
      "(m and index 100 and name O and alt \"\")"⟩,
    ⟨"polar_contact", 1, "B", "(m and index 100 and name O and alt \"\")",
      "index 4"⟩],
   []⟩

/-- Loop state after the polar-contact scenario's water. -/
def sPC : LoopState :=
  ⟨0, 1, [recPC], stPC,
    [Ev.polarSearch "A" "dA" (waterSele wX),
     Ev.polarSearch "B" "dB" (waterSele wX),
     Ev.processCall [cY3] [cY4] "polar_contact" wX]⟩

/-- Loop state after the solvent-side scenario's water: classified, but
nothing aggregated and no identifier increment. -/
def sHOH : LoopState :=
  ⟨0, 0, [], pstate0, [Ev.processCall [cW] [cZ6] "hbond" wX]⟩

/-- Result of the entry point on the empty toolkit oracle. -/
def outEmpty : RunOut :=
  ⟨[], ⟨[], [],
    ["Number of water molecules near domainA: 0",
     "Number of water molecules near domainB: 0",
     "Number of bridging water molecules: 0",
     "No bridging water molecules found between the specified domains within the specified distance."]⟩,
   [], 0, 0⟩

/-! ### Small helper lemmas for the claims -/

theorem py_or_nonempty (l1 l2 : List Contact) (h : l1 ≠ []) :
    py_or l1 l2 = l1 := by
  cases l1 with
  | nil => exact absurd rfl h
  | cons a as => rfl

theorem process_interactions_types (E : Env) (cA cB : List Contact)
    (wo : String) (wi id : Nat) (ty : String) (l : List InteractionRec)
    (dA dB ws : String) (wc : Point3) (st : PState)
    (id' : Nat) (l' : List InteractionRec) (st' : PState)
    (h : process_interactions E cA cB wo wi id ty l dA dB ws wc st =
      some (id', l', st')) :
    ∃ new, l' = l ++ new ∧
      ∀ r ∈ new, r.type =
        (if ty = "hbond" then "Hydrogen Bond" else "Polar Contact") := by
  obtain ⟨resA, resB, hA, hB, hc⟩ :=
    process_interactions_spec E cA cB wo wi id ty l dA dB ws wc st id' l' st' h
  rcases hc with ⟨_, _, hl, _⟩ | ⟨_, _, hl, _⟩
  · exact ⟨[], by simp [hl], by simp⟩
  · exact ⟨_, hl, fun r hr => (pairRecords_fields _ _ _ _ hr).2.2.1⟩

/-! ### Claim C7 -/

/-- C7: the hydrogen-bond search queries both directions (domain → water
and water → domain) with the same distance and angle cutoffs, and a
contact is in its result exactly when it is in the union of the two
directional result sets. -/
theorem C7_bidirectional_union (E : Env) (domain_sele water_sele : String)
    (distance_cutoff angle_cutoff : ℚ) (p : Contact) :
    p ∈ find_hydrogen_bonds E domain_sele water_sele distance_cutoff
        angle_cutoff ↔
      p ∈ E.find_pairs (hbondSel domain_sele) water_sele 1 distance_cutoff
          angle_cutoff ∨
      p ∈ E.find_pairs water_sele (hbondSel domain_sele) 1 distance_cutoff
          angle_cutoff := by
  simp [find_hydrogen_bonds]

/-! ### Claim C1 -/

/-- C1: every record `process_interactions` appends has
`total_distance = distA + distB` and `total_distance ≤ 7`, and a residue
pair whose summed distance exceeds 7 contributes no record. -/
theorem C1_total_distance_invariant (E : Env) (cA cB : List Contact)
    (wo : String) (wi id : Nat) (ty : String) (l : List InteractionRec)
    (dA dB ws : String) (wc : Point3) (st : PState)
    (id' : Nat) (l' : List InteractionRec) (st' : PState)
    (h : process_interactions E cA cB wo wi id ty l dA dB ws wc st =
      some (id', l', st')) :
    ∃ resA resB new, resolve_residues E wc cA [] = some resA ∧
      resolve_residues E wc cB [] = some resB ∧
      l' = l ++ new ∧
      (∀ r ∈ new, r.total_distance = r.distA + r.distB ∧
        r.total_distance ≤ 7) ∧
      (∀ pA ∈ resA, ∀ pB ∈ resB, pA.2.2 + pB.2.2 > 7 →
        mkRecord wi ty pA pB ∉ new) := by
  obtain ⟨resA, resB, hA, hB, hc⟩ :=
    process_interactions_spec E cA cB wo wi id ty l dA dB ws wc st id' l' st' h
  rcases hc with ⟨_, _, hl, _⟩ | ⟨_, _, hl, _⟩
  · refine ⟨resA, resB, [], hA, hB, by simp [hl], by simp, ?_⟩
    intro pA _ pB _ _
    simp
  · refine ⟨resA, resB, pairRecords wi ty (crossPairs resA resB), hA, hB, hl,
      ?_, ?_⟩
    · intro r hr
      obtain ⟨h1, h2, _, _⟩ := pairRecords_fields _ _ _ _ hr
      exact ⟨h1, h2⟩
    · intro pA hpA pB hpB hgt hmem
      obtain ⟨_, h2, _, _⟩ := pairRecords_fields _ _ _ _ hmem
      have htot : (mkRecord wi ty pA pB).total_distance = pA.2.2 + pB.2.2 := rfl
      rw [htot] at h2
      exact absurd h2 (not_le.2 hgt)

/-- Witness for C1 at the hydrogen-bond scenario. -/
theorem C1_witness :
    (process_interactions envHB [cX1] [cX2] "m" 100 0 "hbond" [] "dA" "dB"
      (waterSele wX) ⟨0, 0, 0⟩ pstate0 = some (1, [recHB], stHB)) ∧
    (∃ resA resB new,
      resolve_residues envHB ⟨0, 0, 0⟩ [cX1] [] = some resA ∧
      resolve_residues envHB ⟨0, 0, 0⟩ [cX2] [] = some resB ∧
      [recHB] = [] ++ new ∧
      (∀ r ∈ new, r.total_distance = r.distA + r.distB ∧
        r.total_distance ≤ 7) ∧
      (∀ pA ∈ resA, ∀ pB ∈ resB, pA.2.2 + pB.2.2 > 7 →
        mkRecord 100 "hbond" pA pB ∉ new)) :=
  ⟨by with_unfolding_all decide,
    C1_total_distance_invariant envHB [cX1] [cX2] "m" 100 0 "hbond" [] "dA"
      "dB" (waterSele wX) ⟨0, 0, 0⟩ pstate0 1 [recHB] stHB
      (by with_unfolding_all decide)⟩

/-! ### Claim C2 -/

/-- C2: per bridging water the emitted category follows the four-way
mutually exclusive rule: hydrogen bonds on both sides give only
HydrogenBond records; a hydrogen bond on one side with a polar contact on
the other, or polar contacts on both sides, give only PolarContact
records; any other combination emits nothing. -/
theorem C2_four_way_classification (E : Env) (dA dB : String) (s : LoopState)
    (w : String × Nat) (s' : LoopState)
    (h : water_loop_step E dA dB s w = some s') :
    ∃ pA evA pB evB new,
      polar_fallback E (hbondsOf E dA w) "A" dA (waterSele w) = some (pA, evA) ∧
      polar_fallback E (hbondsOf E dB w) "B" dB (waterSele w) = some (pB, evB) ∧
      s'.interaction_list = s.interaction_list ++ new ∧
      ((hbondsOf E dA w ≠ [] ∧ hbondsOf E dB w ≠ []) →
        ∀ r ∈ new, r.type = "Hydrogen Bond") ∧
      (¬(hbondsOf E dA w ≠ [] ∧ hbondsOf E dB w ≠ []) →
        ((hbondsOf E dA w ≠ [] ∧ pB ≠ []) ∨ (pA ≠ [] ∧ hbondsOf E dB w ≠ [])) →
        ∀ r ∈ new, r.type = "Polar Contact") ∧
      (¬(hbondsOf E dA w ≠ [] ∧ hbondsOf E dB w ≠ []) →
        ¬((hbondsOf E dA w ≠ [] ∧ pB ≠ []) ∨ (pA ≠ [] ∧ hbondsOf E dB w ≠ [])) →
        (pA ≠ [] ∧ pB ≠ []) →
        ∀ r ∈ new, r.type = "Polar Contact") ∧
      (¬(hbondsOf E dA w ≠ [] ∧ hbondsOf E dB w ≠ []) →
        ¬((hbondsOf E dA w ≠ [] ∧ pB ≠ []) ∨ (pA ≠ [] ∧ hbondsOf E dB w ≠ [])) →
        ¬(pA ≠ [] ∧ pB ≠ []) →
        new = []) := by
  obtain ⟨pA, evA, pB, evB, hfa, hfb, hcase⟩ :=
    water_loop_step_cases E dA dB s w s' h
  rcases hcase with ⟨hc1, id', l', st', hp, hs'⟩ |
    ⟨hc1, hc2, id', l', st', hp, hs'⟩ |
    ⟨hc1, hc2, hc3, id', l', st', hp, hs'⟩ | ⟨hc1, hc2, hc3, hs'⟩
  · obtain ⟨new, hl, hty⟩ :=
      process_interactions_types _ _ _ _ _ _ _ _ _ _ _ _ _ _ _ _ hp
    refine ⟨pA, evA, pB, evB, new, hfa, hfb, ?_, ?_, ?_, ?_, ?_⟩
    · rw [hs']
      exact hl
    · intro _ r hr
      simpa using hty r hr
    · exact fun hn => absurd hc1 hn
    · exact fun hn => absurd hc1 hn
    · exact fun hn => absurd hc1 hn
  · obtain ⟨new, hl, hty⟩ :=
      process_interactions_types _ _ _ _ _ _ _ _ _ _ _ _ _ _ _ _ hp
    refine ⟨pA, evA, pB, evB, new, hfa, hfb, ?_, ?_, ?_, ?_, ?_⟩
    · rw [hs']
      exact hl
    · exact fun hcc => absurd hcc hc1
    · intro _ _ r hr
      have := hty r hr
      rw [if_neg (by decide)] at this
      exact this
    · exact fun _ hn _ => absurd hc2 hn
    · exact fun _ hn _ => absurd hc2 hn
  · obtain ⟨new, hl, hty⟩ :=
      process_interactions_types _ _ _ _ _ _ _ _ _ _ _ _ _ _ _ _ hp
    refine ⟨pA, evA, pB, evB, new, hfa, hfb, ?_, ?_, ?_, ?_, ?_⟩
    · rw [hs']
      exact hl
    · exact fun hcc => absurd hcc hc1
    · exact fun _ hcc => absurd hcc hc2
    · intro _ _ _ r hr
      have := hty r hr
      rw [if_neg (by decide)] at this
      exact this
    · exact fun _ _ hn => absurd hc3 hn
  · refine ⟨pA, evA, pB, evB, [], hfa, hfb, ?_, ?_, ?_, ?_, ?_⟩
    · rw [hs']
      simp
    · exact fun hcc => absurd hcc hc1
    · exact fun _ hcc => absurd hcc hc2
    · exact fun _ _ hcc => absurd hcc hc3
    · exact fun _ _ _ => rfl

/-- Witness for C2 at the hydrogen-bond scenario. -/
theorem C2_witness :
    (water_loop_step envHB "dA" "dB" loopInit wX = some sHB) ∧
    (∃ pA evA pB evB new,
      polar_fallback envHB (hbondsOf envHB "dA" wX) "A" "dA" (waterSele wX) =
        some (pA, evA) ∧
      polar_fallback envHB (hbondsOf envHB "dB" wX) "B" "dB" (waterSele wX) =
        some (pB, evB) ∧
      sHB.interaction_list = loopInit.interaction_list ++ new ∧
      ((hbondsOf envHB "dA" wX ≠ [] ∧ hbondsOf envHB "dB" wX ≠ []) →
        ∀ r ∈ new, r.type = "Hydrogen Bond") ∧
      (¬(hbondsOf envHB "dA" wX ≠ [] ∧ hbondsOf envHB "dB" wX ≠ []) →
        ((hbondsOf envHB "dA" wX ≠ [] ∧ pB ≠ []) ∨
          (pA ≠ [] ∧ hbondsOf envHB "dB" wX ≠ [])) →
        ∀ r ∈ new, r.type = "Polar Contact") ∧
      (¬(hbondsOf envHB "dA" wX ≠ [] ∧ hbondsOf envHB "dB" wX ≠ []) →
        ¬((hbondsOf envHB "dA" wX ≠ [] ∧ pB ≠ []) ∨
          (pA ≠ [] ∧ hbondsOf envHB "dB" wX ≠ [])) →
        (pA ≠ [] ∧ pB ≠ []) →
        ∀ r ∈ new, r.type = "Polar Contact") ∧
      (¬(hbondsOf envHB "dA" wX ≠ [] ∧ hbondsOf envHB "dB" wX ≠ []) →
        ¬((hbondsOf envHB "dA" wX ≠ [] ∧ pB ≠ []) ∨
          (pA ≠ [] ∧ hbondsOf envHB "dB" wX ≠ [])) →
        ¬(pA ≠ [] ∧ pB ≠ []) →
        new = [])) :=
  ⟨by with_unfolding_all decide,
    C2_four_way_classification envHB "dA" "dB" loopInit wX sHB
      (by with_unfolding_all decide)⟩

/-! ### Claim C4 -/

/-- C4: for each side of a bridging water, the polar-contact search runs
exactly when the hydrogen-bond search for that side returned no pairs; in
particular no polar-contact search runs for a side with a hydrogen bond. -/
theorem C4_polar_fallback_only (E : Env) (dA dB : String) (s : LoopState)
    (w : String × Nat) (s' : LoopState)
    (h : water_loop_step E dA dB s w = some s') :
    ∃ δ, s'.events = s.events ++ δ ∧
      (Ev.polarSearch "A" dA (waterSele w) ∈ δ ↔ hbondsOf E dA w = []) ∧
      (Ev.polarSearch "B" dB (waterSele w) ∈ δ ↔ hbondsOf E dB w = []) := by
  obtain ⟨pA, evA, pB, evB, hfa, hfb, hcase⟩ :=
    water_loop_step_cases E dA dB s w s' h
  obtain ⟨hfa1, hfa2⟩ := polar_fallback_spec _ _ _ _ _ _ _ hfa
  obtain ⟨hfb1, hfb2⟩ := polar_fallback_spec _ _ _ _ _ _ _ hfb
  have hevA : evA = if hbondsOf E dA w = [] then
      [Ev.polarSearch "A" dA (waterSele w)] else [] := by
    by_cases hA : hbondsOf E dA w = []
    · rw [if_pos hA]
      exact (hfa1 hA).2
    · rw [if_neg hA]
      exact (hfa2 hA).2
  have hevB : evB = if hbondsOf E dB w = [] then
      [Ev.polarSearch "B" dB (waterSele w)] else [] := by
    by_cases hB : hbondsOf E dB w = []
    · rw [if_pos hB]
      exact (hfb1 hB).2
    · rw [if_neg hB]
      exact (hfb2 hB).2
  have hmemA_A : Ev.polarSearch "A" dA (waterSele w) ∈ evA ↔
      hbondsOf E dA w = [] := by
    by_cases hA : hbondsOf E dA w = [] <;> simp [hevA, hA]
  have hmemB_B : Ev.polarSearch "B" dB (waterSele w) ∈ evB ↔
      hbondsOf E dB w = [] := by
    by_cases hB : hbondsOf E dB w = [] <;> simp [hevB, hB]
  have hmemA_B : Ev.polarSearch "A" dA (waterSele w) ∉ evB := by
    by_cases hB : hbondsOf E dB w = []
    · rw [hevB, if_pos hB]
      intro hm
      have heq := List.mem_singleton.1 hm
      injection heq with h1 _ _
      exact absurd h1 (by decide)
    · rw [hevB, if_neg hB]
      simp
  have hmemB_A : Ev.polarSearch "B" dB (waterSele w) ∉ evA := by
    by_cases hA : hbondsOf E dA w = []
    · rw [hevA, if_pos hA]
      intro hm
      have heq := List.mem_singleton.1 hm
      injection heq with h1 _ _
      exact absurd h1 (by decide)
    · rw [hevA, if_neg hA]
      simp
  have key : ∀ pcs : List Ev,
      (∀ sd dd wd : String, Ev.polarSearch sd dd wd ∉ pcs) →
      ((Ev.polarSearch "A" dA (waterSele w) ∈ evA ++ evB ++ pcs ↔
        hbondsOf E dA w = []) ∧
       (Ev.polarSearch "B" dB (waterSele w) ∈ evA ++ evB ++ pcs ↔
        hbondsOf E dB w = [])) := by
    intro pcs hpcs
    constructor
    · simp only [List.mem_append]
      constructor
      · rintro ((h1 | h1) | h1)
        · exact hmemA_A.1 h1
        · exact absurd h1 hmemA_B
        · exact absurd h1 (hpcs _ _ _)
      · exact fun hA => Or.inl (Or.inl (hmemA_A.2 hA))
    · simp only [List.mem_append]
      constructor
      · rintro ((h1 | h1) | h1)
        · exact absurd h1 hmemB_A
        · exact hmemB_B.1 h1
        · exact absurd h1 (hpcs _ _ _)
      · exact fun hB => Or.inl (Or.inr (hmemB_B.2 hB))
  have hpc1 : ∀ (cA cB : List Contact) (ty : String) (wv : String × Nat),
      ∀ sd dd wd : String,
        Ev.polarSearch sd dd wd ∉ [Ev.processCall cA cB ty wv] := by
    intro cA cB ty wv sd dd wd hm
    exact Ev.noConfusion (List.mem_singleton.1 hm)
  rcases hcase with ⟨_, id', l', st', _, hs'⟩ |
    ⟨_, _, id', l', st', _, hs'⟩ |
    ⟨_, _, _, id', l', st', _, hs'⟩ | ⟨_, _, _, hs'⟩
  · obtain ⟨k1, k2⟩ := key [Ev.processCall (hbondsOf E dA w) (hbondsOf E dB w)
      "hbond" w] (hpc1 _ _ _ _)
    exact ⟨_, by rw [hs']; simp [List.append_assoc], k1, k2⟩
  · obtain ⟨k1, k2⟩ := key [Ev.processCall (py_or (hbondsOf E dA w) pA)
      (py_or (hbondsOf E dB w) pB) "polar_contact" w] (hpc1 _ _ _ _)
    exact ⟨_, by rw [hs']; simp [List.append_assoc], k1, k2⟩
  · obtain ⟨k1, k2⟩ := key [Ev.processCall pA pB "polar_contact" w]
      (hpc1 _ _ _ _)
    exact ⟨_, by rw [hs']; simp [List.append_assoc], k1, k2⟩
  · obtain ⟨k1, k2⟩ := key [] (by simp)
    refine ⟨evA ++ evB ++ [], by rw [hs']; simp [List.append_assoc], k1, k2⟩

/-- Witness for C4 at the polar-contact scenario (both searches ran). -/
theorem C4_witness :
    (water_loop_step envPC "dA" "dB" loopInit wX = some sPC) ∧
    (∃ δ, sPC.events = loopInit.events ++ δ ∧
      (Ev.polarSearch "A" "dA" (waterSele wX) ∈ δ ↔
        hbondsOf envPC "dA" wX = []) ∧
      (Ev.polarSearch "B" "dB" (waterSele wX) ∈ δ ↔
        hbondsOf envPC "dB" wX = [])) :=
  ⟨by with_unfolding_all decide,
    C4_polar_fallback_only envPC "dA" "dB" loopInit wX sPC
      (by with_unfolding_all decide)⟩

/-! ### Claim C10 -/

/-- C10: whatever contact lists are handed to the aggregator for a water
are, per side, the hydrogen-bond list when it is non-empty and the
polar-contact list otherwise; in particular the mixed case reuses the
hydrogen-bond atom pairs on the hydrogen-bond side. -/
theorem C10_aggregation_inputs (E : Env) (dA dB : String) (s : LoopState)
    (w : String × Nat) (s' : LoopState)
    (h : water_loop_step E dA dB s w = some s') :
    ∃ δ, s'.events = s.events ++ δ ∧
      ∀ cA cB ty, Ev.processCall cA cB ty w ∈ δ →
        ∃ pA evA pB evB,
          polar_fallback E (hbondsOf E dA w) "A" dA (waterSele w) =
            some (pA, evA) ∧
          polar_fallback E (hbondsOf E dB w) "B" dB (waterSele w) =
            some (pB, evB) ∧
          cA = py_or (hbondsOf E dA w) pA ∧
          cB = py_or (hbondsOf E dB w) pB ∧
          (hbondsOf E dA w ≠ [] → cA = hbondsOf E dA w) ∧
          (hbondsOf E dB w ≠ [] → cB = hbondsOf E dB w) := by
  obtain ⟨pA, evA, pB, evB, hfa, hfb, hcase⟩ :=
    water_loop_step_cases E dA dB s w s' h
  obtain ⟨hfa1, hfa2⟩ := polar_fallback_spec _ _ _ _ _ _ _ hfa
  obtain ⟨hfb1, hfb2⟩ := polar_fallback_spec _ _ _ _ _ _ _ hfb
  have hpcA : ∀ (cA cB : List Contact) (ty : String),
      Ev.processCall cA cB ty w ∉ evA := by
    intro cA cB ty hm
    by_cases hA : hbondsOf E dA w = []
    · rw [(hfa1 hA).2] at hm
      exact Ev.noConfusion (List.mem_singleton.1 hm)
    · rw [(hfa2 hA).2] at hm
      exact absurd hm (List.not_mem_nil _)
  have hpcB : ∀ (cA cB : List Contact) (ty : String),
      Ev.processCall cA cB ty w ∉ evB := by
    intro cA cB ty hm
    by_cases hB : hbondsOf E dB w = []
    · rw [(hfb1 hB).2] at hm
      exact Ev.noConfusion (List.mem_singleton.1 hm)
    · rw [(hfb2 hB).2] at hm
      exact absurd hm (List.not_mem_nil _)
  rcases hcase with ⟨hc1, id', l', st', _, hs'⟩ |
    ⟨hc1, hc2, id', l', st', _, hs'⟩ |
    ⟨hc1, hc2, hc3, id', l', st', _, hs'⟩ | ⟨hc1, hc2, hc3, hs'⟩
  · refine ⟨evA ++ evB ++ [Ev.processCall (hbondsOf E dA w) (hbondsOf E dB w)
      "hbond" w], by rw [hs']; simp [List.append_assoc], ?_⟩
    intro cA cB ty hmem
    rcases List.mem_append.1 hmem with hm | hm
    · rcases List.mem_append.1 hm with hm1 | hm1
      · exact absurd hm1 (hpcA _ _ _)
      · exact absurd hm1 (hpcB _ _ _)
    · have heq := List.mem_singleton.1 hm
      injection heq with e1 e2 e3 e4
      have hApA : pA = [] := (hfa2 hc1.1).1
      have hBpB : pB = [] := (hfb2 hc1.2).1
      refine ⟨pA, evA, pB, evB, hfa, hfb, ?_, ?_, fun _ => e1, fun _ => e2⟩
      · rw [e1, hApA, py_or_nonempty _ _ hc1.1]
      · rw [e2, hBpB, py_or_nonempty _ _ hc1.2]
  · refine ⟨evA ++ evB ++ [Ev.processCall (py_or (hbondsOf E dA w) pA)
      (py_or (hbondsOf E dB w) pB) "polar_contact" w],
      by rw [hs']; simp [List.append_assoc], ?_⟩
    intro cA cB ty hmem
    rcases List.mem_append.1 hmem with hm | hm
    · rcases List.mem_append.1 hm with hm1 | hm1
      · exact absurd hm1 (hpcA _ _ _)
      · exact absurd hm1 (hpcB _ _ _)
    · have heq := List.mem_singleton.1 hm
      injection heq with e1 e2 e3 e4
      refine ⟨pA, evA, pB, evB, hfa, hfb, e1, e2, ?_, ?_⟩
      · intro hne
        rw [e1, py_or_nonempty _ _ hne]
      · intro hne
        rw [e2, py_or_nonempty _ _ hne]
  · refine ⟨evA ++ evB ++ [Ev.processCall pA pB "polar_contact" w],
      by rw [hs']; simp [List.append_assoc], ?_⟩
    intro cA cB ty hmem
    rcases List.mem_append.1 hmem with hm | hm
    · rcases List.mem_append.1 hm with hm1 | hm1
      · exact absurd hm1 (hpcA _ _ _)
      · exact absurd hm1 (hpcB _ _ _)
    · have heq := List.mem_singleton.1 hm
      injection heq with e1 e2 e3 e4
      have hAe : hbondsOf E dA w = [] := by
        by_contra hne
        exact hc2 (Or.inl ⟨hne, hc3.2⟩)
      have hBe : hbondsOf E dB w = [] := by
        by_contra hne
        exact hc2 (Or.inr ⟨hc3.1, hne⟩)
      refine ⟨pA, evA, pB, evB, hfa, hfb, ?_, ?_,
        fun hne => absurd hAe hne, fun hne => absurd hBe hne⟩
      · rw [e1, hAe]
        rfl
      · rw [e2, hBe]
        rfl
  · refine ⟨evA ++ evB, by rw [hs']; simp [List.append_assoc], ?_⟩
    intro cA cB ty hmem
    rcases List.mem_append.1 hmem with hm | hm
    · exact absurd hm (hpcA _ _ _)
    · exact absurd hm (hpcB _ _ _)

/-- Witness for C10 at the hydrogen-bond scenario. -/
theorem C10_witness :
    (water_loop_step envHB "dA" "dB" loopInit wX = some sHB) ∧
    (∃ δ, sHB.events = loopInit.events ++ δ ∧
      ∀ cA cB ty, Ev.processCall cA cB ty wX ∈ δ →
        ∃ pA evA pB evB,
          polar_fallback envHB (hbondsOf envHB "dA" wX) "A" "dA"
            (waterSele wX) = some (pA, evA) ∧
          polar_fallback envHB (hbondsOf envHB "dB" wX) "B" "dB"
            (waterSele wX) = some (pB, evB) ∧
          cA = py_or (hbondsOf envHB "dA" wX) pA ∧
          cB = py_or (hbondsOf envHB "dB" wX) pB ∧
          (hbondsOf envHB "dA" wX ≠ [] → cA = hbondsOf envHB "dA" wX) ∧
          (hbondsOf envHB "dB" wX ≠ [] → cB = hbondsOf envHB "dB" wX)) :=
  ⟨by with_unfolding_all decide,
    C10_aggregation_inputs envHB "dA" "dB" loopInit wX sHB
      (by with_unfolding_all decide)⟩

/-! ### Claim C6 -/

/-- The identifier discipline claimed by the specification, stated as it is
written: whenever a water is classified (i.e. some contact lists were
handed to the aggregator for it), the relevant interaction identifier is
incremented exactly once. -/
def increments_once_per_classified_water (E : Env) (domainA domainB : String)
    (s : LoopState) (w : String × Nat) : Prop :=
  ∀ s' cA cB ty, water_loop_step E domainA domainB s w = some s' →
    Ev.processCall cA cB ty w ∈ s'.events →
    Ev.processCall cA cB ty w ∉ s.events →
    s'.hbond_id + s'.polar_contact_id =
      s.hbond_id + s.polar_contact_id + 1

/-- C6 (counterexample): in the solvent-side scenario the water is
classified as hydrogen-bonded on both sides and handed to the aggregator,
yet no identifier is incremented, because every side-A contact resolves to
the solvent residue and aggregation retains nothing. -/
theorem C6_counterexample :
    ¬ increments_once_per_classified_water envHOH "dA" "dB" loopInit wX := by
  intro h
  have h1 := h sHOH [cW] [cZ6] "hbond" (by with_unfolding_all decide)
    (by with_unfolding_all decide) (by with_unfolding_all decide)
  exact absurd h1 (by decide)

/-- C6 (amended): per aggregated water the identifier increases by at most
one — exactly once when both sides retain a non-solvent residue, and not
at all otherwise; it never increases per emitted record pair, and every
distance object created during the call carries the one returned
identifier, so multiple records for one water reuse it. -/
theorem C6_amended_identifier (E : Env) (cA cB : List Contact)
    (wo : String) (wi id : Nat) (ty : String) (l : List InteractionRec)
    (dA dB ws : String) (wc : Point3) (st : PState)
    (id' : Nat) (l' : List InteractionRec) (st' : PState)
    (h : process_interactions E cA cB wo wi id ty l dA dB ws wc st =
      some (id', l', st')) :
    (id' = id ∨ id' = id + 1) ∧
    (∃ resA resB, resolve_residues E wc cA [] = some resA ∧
      resolve_residues E wc cB [] = some resB ∧
      (id' = id + 1 ↔ ¬(resA = [] ∨ resB = []))) ∧
    (∀ new, l' = l ++ new → new ≠ [] → id' = id + 1) ∧
    (∀ d ∈ st'.distObjs, d ∈ st.distObjs ∨ d.id = id') := by
  obtain ⟨resA, resB, hA, hB, hc⟩ :=
    process_interactions_spec E cA cB wo wi id ty l dA dB ws wc st id' l' st' h
  rcases hc with ⟨he, hid, hl, hst⟩ | ⟨he, hid, hl, hobjs⟩
  · refine ⟨Or.inl hid, ⟨resA, resB, hA, hB, ?_⟩, ?_, ?_⟩
    · constructor
      · intro h1
        rw [hid] at h1
        exact absurd h1.symm (Nat.succ_ne_self id)
      · exact fun hne => absurd he hne
    · intro new hnew hne
      rw [hl] at hnew
      have h0 : l ++ [] = l ++ new := by
        rw [List.append_nil]
        exact hnew
      exact absurd (List.append_cancel_left h0).symm hne
    · intro d hd
      rw [hst] at hd
      exact Or.inl hd
  · refine ⟨Or.inr hid, ⟨resA, resB, hA, hB, ⟨fun _ => he, fun _ => hid⟩⟩,
      fun new _ _ => hid, ?_⟩
    intro d hd
    rcases hobjs d hd with h1 | h1
    · exact Or.inl h1
    · refine Or.inr ?_
      rw [hid]
      exact h1

/-- Witness for the amended C6 at the hydrogen-bond scenario. -/
theorem C6_witness :
    (process_interactions envHB [cX1] [cX2] "m" 100 0 "hbond" [] "dA" "dB"
      (waterSele wX) ⟨0, 0, 0⟩ pstate0 = some (1, [recHB], stHB)) ∧
    ((1 = 0 ∨ 1 = 0 + 1) ∧
     (∃ resA resB, resolve_residues envHB ⟨0, 0, 0⟩ [cX1] [] = some resA ∧
       resolve_residues envHB ⟨0, 0, 0⟩ [cX2] [] = some resB ∧
       (1 = 0 + 1 ↔ ¬(resA = [] ∨ resB = []))) ∧
     (∀ new, [recHB] = [] ++ new → new ≠ [] → 1 = 0 + 1) ∧
     (∀ d ∈ stHB.distObjs, d ∈ pstate0.distObjs ∨ d.id = 1)) :=
  ⟨by with_unfolding_all decide,
    C6_amended_identifier envHB [cX1] [cX2] "m" 100 0 "hbond" [] "dA" "dB"
      (waterSele wX) ⟨0, 0, 0⟩ pstate0 1 [recHB] stHB
      (by with_unfolding_all decide)⟩

/-! ### Claim C9 -/

/-- C9: when every contact on at least one side resolves to a solvent
(HOH) residue (and all atom lookups succeed), `process_interactions`
changes nothing: no records, no selections, no distance objects, and the
identifier comes back unincremented. -/
theorem C9_solvent_side_noop (E : Env) (cA cB : List Contact)
    (wo : String) (wi id : Nat) (ty : String) (l : List InteractionRec)
    (dA dB ws : String) (wc : Point3) (st : PState)
    (hres : ∀ c ∈ cA ++ cB,
      ((E.get_model_atoms (idxSel c.a.2)).head?).isSome = true)
    (hsolv : (∀ c ∈ cA,
        (E.get_model_atoms (idxSel c.a.2)).head?.map Atom.resn = some "HOH") ∨
      (∀ c ∈ cB,
        (E.get_model_atoms (idxSel c.a.2)).head?.map Atom.resn = some "HOH")) :
    process_interactions E cA cB wo wi id ty l dA dB ws wc st =
      some (id, l, st) := by
  rcases hsolv with hs | hs
  · have hA := resolve_residues_all_solvent E wc cA hs []
    obtain ⟨resB, hB⟩ := resolve_residues_isSome E wc cB
      (fun c hc => hres c (List.mem_append.2 (Or.inr hc))) []
    simp [process_interactions, hA, hB]
  · have hB := resolve_residues_all_solvent E wc cB hs []
    obtain ⟨resA, hA⟩ := resolve_residues_isSome E wc cA
      (fun c hc => hres c (List.mem_append.2 (Or.inl hc))) []
    simp [process_interactions, hA, hB]

/-- Witness for C9 at the solvent-side scenario. -/
theorem C9_witness :
    (∀ c ∈ ([cW] ++ [cZ6] : List Contact),
      ((envHOH.get_model_atoms (idxSel c.a.2)).head?).isSome = true) ∧
    (∀ c ∈ ([cW] : List Contact),
      (envHOH.get_model_atoms (idxSel c.a.2)).head?.map Atom.resn =
        some "HOH") ∧
    process_interactions envHOH [cW] [cZ6] "m" 100 0 "hbond" [] "dA" "dB"
      (waterSele wX) ⟨0, 0, 0⟩ pstate0 = some (0, [], pstate0) :=
  ⟨by with_unfolding_all decide, by with_unfolding_all decide,
    C9_solvent_side_noop envHOH [cW] [cZ6] "m" 100 0 "hbond" [] "dA" "dB"
      (waterSele wX) ⟨0, 0, 0⟩ pstate0 (by with_unfolding_all decide)
      (Or.inl (by with_unfolding_all decide))⟩

/-! ### Claim C3 -/

/-- The per-residue reduction rule claimed by the specification, stated as
written: the retained atom-distance pair of every residue key is minimal
among the distances of all contacts resolving to that residue. -/
def retains_minimum_per_residue (E : Env) (water_coords : Point3)
    (contacts : List Contact) : Prop :=
  ∀ l, resolve_residues E water_coords contacts [] = some l →
    ∀ k v, dictGet k l = some v →
      ∀ e ∈ contacts.filterMap (contactEntry E water_coords),
        e.1 = k → v.2 ≤ e.2.2

/-- C3 (counterexample): with two contacts of one residue, nearer atom
first (distance 1), the aggregation retains the later, farther atom's
distance 4 — dict overwrite keeps the last contact, not the minimum. -/
theorem C3_counterexample :
    ¬ retains_minimum_per_residue envLast ⟨0, 0, 0⟩ [cN, cF] := by
  intro h
  have h1 := h [(⟨"m", "A", "10", "GLY"⟩, 12, 4)]
    (by with_unfolding_all decide) ⟨"m", "A", "10", "GLY"⟩ (12, 4)
    (by with_unfolding_all decide) (⟨"m", "A", "10", "GLY"⟩, 11, 1)
    (by with_unfolding_all decide) rfl
  exact absurd h1 (by with_unfolding_all decide)

/-- C3 (amended): aggregation retains exactly one atom-distance pair per
residue key — the pair of the *last* contact in input order resolving to
that residue (Python dict overwrite), not necessarily the
minimum-distance one — and the emitted records come from a duplicate-free
cross product of residue-key pairs, so at most one record exists per
(residueA, residueB, water) triple. -/
theorem C3_amended_last_wins (E : Env) (cA cB : List Contact)
    (wo : String) (wi id : Nat) (ty : String) (l : List InteractionRec)
    (dA dB ws : String) (wc : Point3) (st : PState)
    (id' : Nat) (l' : List InteractionRec) (st' : PState)
    (h : process_interactions E cA cB wo wi id ty l dA dB ws wc st =
      some (id', l', st')) :
    ∃ resA resB,
      resolve_residues E wc cA [] = some resA ∧
      resolve_residues E wc cB [] = some resB ∧
      (resA.map Prod.fst).Nodup ∧ (resB.map Prod.fst).Nodup ∧
      (∀ k, dictGet k resA =
        last_written k (cA.filterMap (contactEntry E wc))) ∧
      (∀ k, dictGet k resB =
        last_written k (cB.filterMap (contactEntry E wc))) ∧
      ((crossPairs resA resB).map (fun pq => (pq.1.1, pq.2.1))).Nodup ∧
      ∃ new, l' = l ++ new ∧
        new = (if resA = [] ∨ resB = [] then []
          else pairRecords wi ty (crossPairs resA resB)) := by
  obtain ⟨resA, resB, hA, hB, hc⟩ :=
    process_interactions_spec E cA cB wo wi id ty l dA dB ws wc st id' l' st' h
  have hA' := resolve_residues_eq_foldl E wc cA [] resA hA
  have hB' := resolve_residues_eq_foldl E wc cB [] resB hB
  have nodA : (resA.map Prod.fst).Nodup := by
    rw [hA']
    exact keys_nodup_foldl_dictInsert _ _ (by simp)
  have nodB : (resB.map Prod.fst).Nodup := by
    rw [hB']
    exact keys_nodup_foldl_dictInsert _ _ (by simp)
  have getA : ∀ k, dictGet k resA =
      last_written k (cA.filterMap (contactEntry E wc)) := by
    intro k
    rw [hA', dictGet_foldl_dictInsert]
    cases hlw : last_written k (cA.filterMap (contactEntry E wc)) <;>
      simp [dictGet]
  have getB : ∀ k, dictGet k resB =
      last_written k (cB.filterMap (contactEntry E wc)) := by
    intro k
    rw [hB', dictGet_foldl_dictInsert]
    cases hlw : last_written k (cB.filterMap (contactEntry E wc)) <;>
      simp [dictGet]
  have hfun : (fun pq : (ResKey × Nat × ℚ) × (ResKey × Nat × ℚ) =>
      (pq.1.1, pq.2.1)) = Prod.map Prod.fst Prod.fst := by
    funext pq
    cases pq
    rfl
  have crossNod : ((crossPairs resA resB).map
      (fun pq => (pq.1.1, pq.2.1))).Nodup := by
    rw [hfun, crossPairs_map]
    exact crossPairs_nodup _ _ nodA nodB
  rcases hc with ⟨he, _, hl, _⟩ | ⟨he, _, hl, _⟩
  · exact ⟨resA, resB, hA, hB, nodA, nodB, getA, getB, crossNod,
      [], by simp [hl], by rw [if_pos he]⟩
  · exact ⟨resA, resB, hA, hB, nodA, nodB, getA, getB, crossNod,
      pairRecords wi ty (crossPairs resA resB), hl, by rw [if_neg he]⟩

/-- Witness for the amended C3 at the hydrogen-bond scenario. -/
theorem C3_witness :
    (process_interactions envHB [cX1] [cX2] "m" 100 0 "hbond" [] "dA" "dB"
      (waterSele wX) ⟨0, 0, 0⟩ pstate0 = some (1, [recHB], stHB)) ∧
    (∃ resA resB,
      resolve_residues envHB ⟨0, 0, 0⟩ [cX1] [] = some resA ∧
      resolve_residues envHB ⟨0, 0, 0⟩ [cX2] [] = some resB ∧
      (resA.map Prod.fst).Nodup ∧ (resB.map Prod.fst).Nodup ∧
      (∀ k, dictGet k resA =
        last_written k ([cX1].filterMap (contactEntry envHB ⟨0, 0, 0⟩))) ∧
      (∀ k, dictGet k resB =
        last_written k ([cX2].filterMap (contactEntry envHB ⟨0, 0, 0⟩))) ∧
      ((crossPairs resA resB).map (fun pq => (pq.1.1, pq.2.1))).Nodup ∧
      ∃ new, [recHB] = [] ++ new ∧
        new = (if resA = [] ∨ resB = [] then []
          else pairRecords 100 "hbond" (crossPairs resA resB))) :=
  ⟨by with_unfolding_all decide,
    C3_amended_last_wins envHB [cX1] [cX2] "m" 100 0 "hbond" [] "dA" "dB"
      (waterSele wX) ⟨0, 0, 0⟩ pstate0 1 [recHB] stHB
      (by with_unfolding_all decide)⟩

/-! ### Claim C5 -/

/-- C5: when the bridging-water query is empty, the analysis returns
normally and early with zero interactions: empty result list, no
selections left (the visualization selections were never created and the
temporary ones were deleted), no distance objects, no per-water events,
and the informational message printed. -/
theorem C5_empty_bridge_set (E : Env) (dA dB : String)
    (h : E.index bridgeQuery = []) :
    ∃ out, select_residue_water_residue_combined E dA dB = some out ∧
      out.interaction_list = [] ∧
      out.pstate.selections = [] ∧
      out.pstate.distObjs = [] ∧
      out.events = [] ∧
      "No bridging water molecules found between the specified domains within the specified distance."
        ∈ out.pstate.printed := by
  refine ⟨⟨[], ⟨[], [],
    ["Number of water molecules near domainA: " ++
       toString (E.count_atoms "water_near_A and name O"),
     "Number of water molecules near domainB: " ++
       toString (E.count_atoms "water_near_B and name O"),
     "Number of bridging water molecules: " ++
       toString (E.count_atoms "water_bridge and name O"),
     "No bridging water molecules found between the specified domains within the specified distance."]⟩,
    [], 0, 0⟩, ?_, rfl, rfl, rfl, rfl, by simp⟩
  simp only [select_residue_water_residue_combined, h]
  with_unfolding_all rfl

/-- Witness for C5 at the empty toolkit oracle. -/
theorem C5_witness :
    (envEmpty.index bridgeQuery = []) ∧
    (∃ out, select_residue_water_residue_combined envEmpty "dA" "dB" =
        some out ∧
      out.interaction_list = [] ∧
      out.pstate.selections = [] ∧
      out.pstate.distObjs = [] ∧
      out.events = [] ∧
      "No bridging water molecules found between the specified domains within the specified distance."
        ∈ out.pstate.printed) :=
  ⟨rfl, C5_empty_bridge_set envEmpty "dA" "dB" rfl⟩

/-! ### Claim C8 -/

/-- C8: with the toolkit's query results held fixed, the analysis is a
pure function of them: two runs yield the same record multiset. -/
theorem C8_deterministic_records (E : Env) (dA dB : String) (r1 r2 : RunOut)
    (h1 : select_residue_water_residue_combined E dA dB = some r1)
    (h2 : select_residue_water_residue_combined E dA dB = some r2) :
    Multiset.ofList r1.interaction_list =
      Multiset.ofList r2.interaction_list := by
  rw [h1] at h2
  rw [Option.some.inj h2]

/-- Witness for C8 at the empty toolkit oracle. -/
theorem C8_witness :
    (select_residue_water_residue_combined envEmpty "dA" "dB" =
      some outEmpty) ∧
    Multiset.ofList outEmpty.interaction_list =
      Multiset.ofList outEmpty.interaction_list :=
  ⟨by with_unfolding_all decide,
    C8_deterministic_records envEmpty "dA" "dB" outEmpty outEmpty
      (by with_unfolding_all decide) (by with_unfolding_all decide)⟩

end SelectRWR
